import Mathlib

/-!
Verification of the focus-timer backend (`src/server.py`).

The handlers are shallowly embedded as pure functions over an explicit
`ServerState` holding the three Mongo collections (`focus_sessions`,
`user_stats`, `schedules`).  Timestamps are modelled as a calendar-day
ordinal (an integer; Python's `date` arithmetic is ordinal subtraction and
`weekday()` is the ordinal mod 7 with 0 = Monday) together with a rational
hour-of-day; durations are exact rationals measured in hours.
-/

set_option autoImplicit false

namespace Backend

/-- A point in time: `day` is the calendar-day ordinal (day 0 is a Monday,
so `weekday = day % 7` with 0 = Monday, matching Python's
`datetime.weekday()`), `hour` the time of day in hours. -/
structure Timestamp where
  day : ℤ
  hour : ℚ
  deriving DecidableEq, Repr

/-- `(end_time - start_time).total_seconds() / 3600` of `server.py` line 127:
the exact elapsed time in hours. -/
def hoursBetween (t1 t2 : Timestamp) : ℚ :=
  (t2.day - t1.day) * 24 + (t2.hour - t1.hour)

/-- `end_time.weekday()` (lines 141 and 170): 0 = Monday … 6 = Sunday. -/
def Timestamp.weekday (t : Timestamp) : ℕ :=
  (t.day % 7).toNat

/-- `(end_time.date() - last_session_date.date()).days` (line 155):
calendar-date subtraction, an integer that may be negative. -/
def daysDiff (now last : Timestamp) : ℤ :=
  now.day - last.day

/-- A document of the `focus_sessions` collection (model `FocusSession`). -/
structure FocusSession where
  userId : String
  startTime : Timestamp
  endTime : Option Timestamp := none
  duration : ℤ
  completed : Bool := false
  quote : String
  createdAt : Timestamp
  deriving DecidableEq, Repr

/-- A document of the `user_stats` collection (model `UserStats`). -/
structure UserStats where
  userId : String
  totalHours : ℚ := 0
  sessionsCount : ℤ := 0
  currentStreak : ℤ := 0
  lastSessionDate : Option Timestamp := none
  weeklyData : List ℚ := List.replicate 7 0
  deriving DecidableEq, Repr

/-- A document of the `schedules` collection (model `Schedule`). -/
structure Schedule where
  userId : String
  time : String
  days : List String
  enabled : Bool := true
  name : String
  createdAt : Timestamp
  deriving DecidableEq, Repr

/-- The error taxonomy: `HTTPException(status_code=404, ...)`. -/
inductive ApiError where
  | notFound
  deriving DecidableEq, Repr

/-- The persistent store: the three collections touched by the handlers.
Sessions and schedules are keyed by their Mongo `_id` string; stats records
carry their `userId` key inline. -/
structure ServerState where
  sessions : List (String × FocusSession)
  userStats : List UserStats
  schedules : List (String × Schedule)
  deriving DecidableEq, Repr

/-- `db.focus_sessions.find_one({"_id": id})`. -/
def findSession (s : ServerState) (sid : String) : Option FocusSession :=
  (s.sessions.find? (fun p => p.1 = sid)).map (fun p => p.2)

/-- `db.user_stats.find_one({"userId": u})`. -/
def findStats (s : ServerState) (u : String) : Option UserStats :=
  s.userStats.find? (fun st => st.userId = u)

/-- `db.schedules.find_one({"_id": id})`. -/
def findSchedule (s : ServerState) (sid : String) : Option Schedule :=
  (s.schedules.find? (fun p => p.1 = sid)).map (fun p => p.2)

/-- Mongo's `update_one`: rewrite the first element satisfying `p`. -/
def updateFirst {α : Type} (p : α → Bool) (f : α → α) : List α → List α
  | [] => []
  | x :: xs => if p x then f x :: xs else x :: updateFirst p f xs

/-- `weekly_data[i] += v` (lines 142 and 171). -/
def listAddAt (l : List ℚ) (i : ℕ) (v : ℚ) : List ℚ :=
  l.set i (l.getD i 0 + v)

/-- Request body of `POST /api/sessions/complete`. -/
structure FocusSessionComplete where
  sessionId : String
  userId : String := "default_user"

/-- The streak computation of `complete_session` (lines 150–166): with a
prior `lastSessionDate`, keep the streak on the same calendar day, add 1 on
the next day, reset to 1 otherwise (including negative differences); with no
prior date, reset to 1. -/
def newStreak (stats : UserStats) (now : Timestamp) : ℤ :=
  match stats.lastSessionDate with
  | some last =>
    if daysDiff now last = 0 then stats.currentStreak
    else if daysDiff now last = 1 then stats.currentStreak + 1
    else 1
  | none => 1

/-- The stats record created on a user's first completion (lines 132–144):
fresh defaults with the session's duration, count 1, streak 1, the
completion time as `lastSessionDate`, and the duration placed at the
completion's weekday slot of an all-zero week. -/
def freshStats (u : String) (now : Timestamp) (actual_duration : ℚ) : UserStats :=
  { userId := u
    totalHours := actual_duration
    sessionsCount := 1
    currentStreak := 1
    lastSessionDate := some now
    weeklyData := listAddAt (List.replicate 7 0) now.weekday actual_duration }

/-- The incremental stats update on a subsequent completion (lines 146–182). -/
def updatedStats (stats : UserStats) (now : Timestamp) (actual_duration : ℚ) :
    UserStats :=
  { stats with
      totalHours := stats.totalHours + actual_duration
      sessionsCount := stats.sessionsCount + 1
      currentStreak := newStreak stats now
      lastSessionDate := some now
      weeklyData := listAddAt stats.weeklyData now.weekday actual_duration }

/-- `complete_session` (lines 109–184).  Looks up the session (404 when
absent), stamps `endTime := now, completed := true`, computes the actual
duration in hours, then upserts the user's stats: a fresh record on first
completion, otherwise an incremental update with the streak rule on the
calendar-day difference from `lastSessionDate`.  Returns the duration and
the post state. -/
def complete_session (req : FocusSessionComplete) (now : Timestamp)
    (s : ServerState) : Except ApiError ℚ × ServerState :=
  match findSession s req.sessionId with
  | none => (.error .notFound, s)
  | some sess =>
    let stamp : String × FocusSession → String × FocusSession :=
      fun p => (p.1, { p.2 with endTime := some now, completed := true })
    let sessions1 :=
      updateFirst (fun p => p.1 = req.sessionId) stamp s.sessions
    let s1 : ServerState := { s with sessions := sessions1 }
    let actual_duration : ℚ := hoursBetween sess.startTime now
    match findStats s1 req.userId with
    | none =>
      let stats := freshStats req.userId now actual_duration
      (.ok actual_duration, { s1 with userStats := s1.userStats ++ [stats] })
    | some stats =>
      let stats' := updatedStats stats now actual_duration
      let userStats' :=
        updateFirst (fun st => st.userId = req.userId) (fun _ => stats')
          s1.userStats
      (.ok actual_duration, { s1 with userStats := userStats' })

/-- `get_stats` (lines 198–209): the persisted record when present,
otherwise a freshly constructed default `UserStats(userId=userId)`; the
state is returned untouched (the handler performs no write). -/
def get_stats (userId : String) (s : ServerState) : UserStats × ServerState :=
  match findStats s userId with
  | some stats => (stats, s)
  | none => ({ userId := userId }, s)

/-- `get_schedules` (lines 227–235): `find({"userId": userId}).to_list(100)`
— the matching schedules in storage order, capped at 100 documents. -/
def get_schedules (userId : String) (s : ServerState) :
    List (String × Schedule) × ServerState :=
  ((s.schedules.filter (fun p => p.2.userId = userId)).take 100, s)

/-- `toggle_schedule` (lines 249–265): 404 when the id is absent, otherwise
negate the stored `enabled` flag and return the new value. -/
def toggle_schedule (sid : String) (s : ServerState) :
    Except ApiError Bool × ServerState :=
  match findSchedule s sid with
  | none => (.error .notFound, s)
  | some schedule =>
    let new_status := !schedule.enabled
    let setEnabled : String × Schedule → String × Schedule :=
      fun p => (p.1, { p.2 with enabled := new_status })
    (.ok new_status,
      { s with schedules := updateFirst (fun p => p.1 = sid) setEnabled s.schedules })

/-! ### Observations on the store -/

/-- The persisted `totalHours` for a user (0 when no record exists). -/
def statsTotal (s : ServerState) (u : String) : ℚ :=
  match findStats s u with
  | some st => st.totalHours
  | none => 0

/-- The persisted `sessionsCount` for a user (0 when no record exists). -/
def statsCount (s : ServerState) (u : String) : ℤ :=
  match findStats s u with
  | some st => st.sessionsCount
  | none => 0

/-- The persisted `weeklyData[d]` for a user (0 when no record exists). -/
def statsWeekly (s : ServerState) (u : String) (d : ℕ) : ℚ :=
  match findStats s u with
  | some st => st.weeklyData.getD d 0
  | none => 0

/-- The start time of a stored session, when it exists. -/
def startOf (s : ServerState) (sid : String) : Option Timestamp :=
  (findSession s sid).map (fun sess => sess.startTime)

/-- Store invariant: every stats record's `weeklyData` has length 7
(pydantic's default, maintained by every write). -/
def weeklyLen7 (s : ServerState) : Prop :=
  ∀ st ∈ s.userStats, st.weeklyData.length = 7

/-- Run a list of completion requests `(sessionId, now)` for one user in
order, collecting the durations of the completions that succeed. -/
def runCompletions (u : String) : List (String × Timestamp) → ServerState →
    List ℚ × ServerState
  | [], s => ([], s)
  | c :: cs, s =>
    match complete_session ⟨c.1, u⟩ c.2 s with
    | (.ok d, s') =>
      let r := runCompletions u cs s'
      (d :: r.1, r.2)
    | (.error _, s') => runCompletions u cs s'

/-- The actual elapsed duration each command `(sessionId, now)` records,
read off the start times stored in the initial state; commands whose
session does not exist are dropped (they fail with 404). -/
def durations (s : ServerState) (cmds : List (String × Timestamp)) : List ℚ :=
  cmds.filterMap (fun c => (startOf s c.1).map (fun t => hoursBetween t c.2))

/-- The part of `durations` contributed by completions landing on
weekday `d`. -/
def weekdayContribution (s : ServerState) (d : ℕ)
    (cmds : List (String × Timestamp)) : ℚ :=
  (cmds.filterMap (fun c =>
    if c.2.weekday = d then (startOf s c.1).map (fun t => hoursBetween t c.2)
    else none)).sum

/-! ### Concrete fixtures used by the witnesses -/

def sessA : FocusSession :=
  { userId := "u", startTime := ⟨0, 10⟩, duration := 25, quote := "q",
    createdAt := ⟨0, 9⟩ }

def sessB : FocusSession :=
  { userId := "u", startTime := ⟨1, 8⟩, duration := 25, quote := "q",
    createdAt := ⟨1, 8⟩ }

def stA : UserStats :=
  { userId := "u", totalHours := 2, sessionsCount := 3, currentStreak := 2,
    lastSessionDate := some ⟨0, 12⟩, weeklyData := List.replicate 7 0 }

def stNoDate : UserStats :=
  { userId := "u", totalHours := 2, sessionsCount := 3, currentStreak := 2,
    lastSessionDate := none, weeklyData := List.replicate 7 0 }

def schedX : Schedule :=
  { userId := "u", time := "08:00", days := ["Mon"], name := "n",
    createdAt := ⟨0, 0⟩ }

def stateC1 : ServerState := ⟨[("s1", sessA)], [stA], []⟩

def stateC2 : ServerState := ⟨[("s1", sessA)], [], []⟩

def stateC3 : ServerState := ⟨[("s1", sessA), ("s2", sessB)], [], []⟩

/-- `sessA` after an earlier completion at ⟨0, 11⟩. -/
def sessADone : FocusSession :=
  { sessA with completed := true, endTime := some ⟨0, 11⟩ }

def stateC6 : ServerState := ⟨[("s1", sessADone)], [stA], []⟩

def stateC8 : ServerState := ⟨[], [], [("a", schedX)]⟩

def stateC10 : ServerState := ⟨[("s1", sessA)], [stNoDate], []⟩

def emptyState : ServerState := ⟨[], [], []⟩

/-- 101 schedules for the same user, distinguished by `createdAt`. -/
def manySchedules : List (String × Schedule) :=
  (List.range 101).map (fun i =>
    ("x", { userId := "u", time := "", days := [], name := "",
            createdAt := ⟨(i : ℤ), 0⟩ }))

def stateC9 : ServerState := ⟨[], [], manySchedules⟩

/-- The 101st schedule of `manySchedules`. -/
def lateSchedule : Schedule :=
  { userId := "u", time := "", days := [], name := "", createdAt := ⟨100, 0⟩ }

/-! ### Helper lemmas -/

theorem runCompletions_cons (u : String) (c : String × Timestamp)
    (cs : List (String × Timestamp)) (s : ServerState) :
    runCompletions u (c :: cs) s =
      match complete_session ⟨c.1, u⟩ c.2 s with
      | (.ok d, s') =>
        (d :: (runCompletions u cs s').1, (runCompletions u cs s').2)
      | (.error _, s') => runCompletions u cs s' := rfl

theorem findStats_mk_sessions (s : ServerState) (x : List (String × FocusSession))
    (u : String) : findStats { s with sessions := x } u = findStats s u := rfl

theorem find?_updateFirst_self {α : Type} (p : α → Bool) (f : α → α)
    (l : List α) (x : α) (hx : l.find? p = some x) (hf : p (f x) = true) :
    (updateFirst p f l).find? p = some (f x) := by
  induction l with
  | nil => simp at hx
  | cons a as ih =>
    by_cases ha : p a
    · rw [List.find?_cons_of_pos _ ha] at hx
      cases hx
      simp [updateFirst, ha, List.find?_cons_of_pos _ hf]
    · rw [List.find?_cons_of_neg _ ha] at hx
      simp [updateFirst, ha, List.find?_cons_of_neg _ ha, ih hx]

theorem find?_map_updateFirst {α β : Type} (p q : α → Bool) (f : α → α)
    (g : α → β) (hq : ∀ a, q (f a) = q a) (hg : ∀ a, g (f a) = g a)
    (l : List α) :
    ((updateFirst p f l).find? q).map g = (l.find? q).map g := by
  induction l with
  | nil => rfl
  | cons a as ih =>
    by_cases ha : p a
    · by_cases hqa : q a
      · simp [updateFirst, ha, List.find?_cons_of_pos _ ((hq a).trans (by simp [hqa]) : q (f a) = true),
          List.find?_cons_of_pos _ hqa, hg a]
      · have hfa : ¬ q (f a) = true := by
          rw [hq a]; simp [hqa]
        simp only [updateFirst, ha, if_true, ite_true, if_pos trivial]
        rw [List.find?_cons_of_neg as hfa, List.find?_cons_of_neg as (by simp [hqa])]
    · by_cases hqa : q a
      · simp [updateFirst, ha, List.find?_cons_of_pos _ hqa]
      · simp [updateFirst, ha, List.find?_cons_of_neg _ hqa, ih]

/-- An unknown `sessionId` makes `complete_session` fail with 404 and leave
the state untouched. -/
theorem complete_session_of_not_found (req : FocusSessionComplete)
    (now : Timestamp) (s : ServerState)
    (h : findSession s req.sessionId = none) :
    complete_session req now s = (.error .notFound, s) := by
  unfold complete_session
  rw [h]

theorem complete_session_ok (req : FocusSessionComplete) (now : Timestamp)
    (s : ServerState) (sess : FocusSession)
    (h : findSession s req.sessionId = some sess) :
    (complete_session req now s).1 = .ok (hoursBetween sess.startTime now) := by
  unfold complete_session
  rw [h]
  dsimp only
  split <;> rfl

theorem findStats_complete_session_of_none (req : FocusSessionComplete)
    (now : Timestamp) (s : ServerState) (sess : FocusSession)
    (h : findSession s req.sessionId = some sess)
    (hst : findStats s req.userId = none) :
    findStats (complete_session req now s).2 req.userId =
      some (freshStats req.userId now (hoursBetween sess.startTime now)) := by
  unfold complete_session
  rw [h]
  dsimp only
  split
  next heq =>
    unfold findStats at hst ⊢
    rw [List.find?_append, hst]
    simp [freshStats, List.find?]
  next stats heq =>
    have hc : findStats s req.userId = some stats := heq
    rw [hst] at hc
    exact Option.noConfusion hc

theorem findStats_complete_session_of_some (req : FocusSessionComplete)
    (now : Timestamp) (s : ServerState) (sess : FocusSession) (st : UserStats)
    (h : findSession s req.sessionId = some sess)
    (hst : findStats s req.userId = some st) :
    findStats (complete_session req now s).2 req.userId =
      some (updatedStats st now (hoursBetween sess.startTime now)) := by
  unfold complete_session
  rw [h]
  dsimp only
  split
  next heq =>
    have hc : findStats s req.userId = none := heq
    rw [hst] at hc
    exact Option.noConfusion hc
  next stats heq =>
    have hc : findStats s req.userId = some stats := heq
    rw [hst] at hc
    injection hc with hc
    subst hc
    unfold findStats at hst ⊢
    have hpst := List.find?_some hst
    refine find?_updateFirst_self _ _ _ st hst ?_
    simpa [updatedStats] using hpst

theorem sessions_complete_session (req : FocusSessionComplete) (now : Timestamp)
    (s : ServerState) (sess : FocusSession)
    (h : findSession s req.sessionId = some sess) :
    (complete_session req now s).2.sessions =
      updateFirst (fun p => p.1 = req.sessionId)
        (fun p => (p.1, { p.2 with endTime := some now, completed := true }))
        s.sessions := by
  unfold complete_session
  rw [h]
  dsimp only
  split <;> rfl

theorem startOf_complete_session (req : FocusSessionComplete) (now : Timestamp)
    (s : ServerState) (sid : String) :
    startOf (complete_session req now s).2 sid = startOf s sid := by
  cases h : findSession s req.sessionId with
  | none => rw [complete_session_of_not_found req now s h]
  | some sess =>
    unfold startOf findSession
    rw [sessions_complete_session req now s sess h, Option.map_map,
      Option.map_map]
    exact find?_map_updateFirst (fun p => decide (p.1 = req.sessionId))
      (fun p => decide (p.1 = sid))
      (fun p => (p.1, { p.2 with endTime := some now, completed := true }))
      (fun p => p.2.startTime) (fun a => rfl) (fun a => rfl) s.sessions

theorem Timestamp.weekday_lt (t : Timestamp) : t.weekday < 7 := by
  unfold Timestamp.weekday
  have h1 : t.day % 7 < 7 := Int.emod_lt_of_pos t.day (by norm_num)
  omega

theorem getD_listAddAt_self (l : List ℚ) (i : ℕ) (v : ℚ) (hi : i < l.length) :
    (listAddAt l i v).getD i 0 = l.getD i 0 + v := by
  unfold listAddAt
  rw [List.getD_eq_getElem?_getD, List.getElem?_set_self hi]
  rfl

theorem getD_listAddAt_ne (l : List ℚ) (i j : ℕ) (v : ℚ) (hij : i ≠ j) :
    (listAddAt l i v).getD j 0 = l.getD j 0 := by
  unfold listAddAt
  rw [List.getD_eq_getElem?_getD, List.getElem?_set_ne hij,
    ← List.getD_eq_getElem?_getD]

theorem getD_listAddAt (l : List ℚ) (i j : ℕ) (v : ℚ) (hi : i < l.length) :
    (listAddAt l i v).getD j 0 = l.getD j 0 + if i = j then v else 0 := by
  by_cases hij : i = j
  · subst hij
    rw [getD_listAddAt_self l i v hi, if_pos rfl]
  · rw [getD_listAddAt_ne l i j v hij, if_neg hij, add_zero]

theorem length_listAddAt (l : List ℚ) (i : ℕ) (v : ℚ) :
    (listAddAt l i v).length = l.length := by
  unfold listAddAt
  exact List.length_set l i _

theorem statsTotal_complete_session (req : FocusSessionComplete)
    (now : Timestamp) (s : ServerState) (sess : FocusSession)
    (h : findSession s req.sessionId = some sess) :
    statsTotal (complete_session req now s).2 req.userId
      = statsTotal s req.userId + hoursBetween sess.startTime now := by
  cases hst : findStats s req.userId with
  | none =>
    unfold statsTotal
    rw [findStats_complete_session_of_none req now s sess h hst, hst]
    simp [freshStats]
  | some st =>
    unfold statsTotal
    rw [findStats_complete_session_of_some req now s sess st h hst, hst]
    simp [updatedStats]

theorem statsCount_complete_session (req : FocusSessionComplete)
    (now : Timestamp) (s : ServerState) (sess : FocusSession)
    (h : findSession s req.sessionId = some sess) :
    statsCount (complete_session req now s).2 req.userId
      = statsCount s req.userId + 1 := by
  cases hst : findStats s req.userId with
  | none =>
    unfold statsCount
    rw [findStats_complete_session_of_none req now s sess h hst, hst]
    simp [freshStats]
  | some st =>
    unfold statsCount
    rw [findStats_complete_session_of_some req now s sess st h hst, hst]
    simp [updatedStats]

theorem statsWeekly_complete_session (req : FocusSessionComplete)
    (now : Timestamp) (s : ServerState) (sess : FocusSession)
    (h : findSession s req.sessionId = some sess) (hw : weeklyLen7 s)
    (d : ℕ) :
    statsWeekly (complete_session req now s).2 req.userId d
      = statsWeekly s req.userId d
        + if now.weekday = d then hoursBetween sess.startTime now else 0 := by
  cases hst : findStats s req.userId with
  | none =>
    unfold statsWeekly
    rw [findStats_complete_session_of_none req now s sess h hst, hst]
    dsimp only [freshStats]
    rw [getD_listAddAt _ _ _ _ (by simp [Timestamp.weekday_lt])]
    have hz : (List.replicate 7 (0 : ℚ)).getD d 0 = 0 := by
      rw [List.getD_eq_getElem?_getD, List.getElem?_replicate]
      split <;> rfl
    rw [hz]
  | some st =>
    unfold statsWeekly
    rw [findStats_complete_session_of_some req now s sess st h hst, hst]
    dsimp only [updatedStats]
    rw [getD_listAddAt _ _ _ _
      (by rw [hw st (List.mem_of_find?_eq_some hst)]; exact now.weekday_lt)]

theorem userStats_complete_session_of_none (req : FocusSessionComplete)
    (now : Timestamp) (s : ServerState) (sess : FocusSession)
    (h : findSession s req.sessionId = some sess)
    (hst : findStats s req.userId = none) :
    (complete_session req now s).2.userStats =
      s.userStats ++ [freshStats req.userId now (hoursBetween sess.startTime now)] := by
  unfold complete_session
  rw [h]
  dsimp only
  split
  next heq => rfl
  next stats heq =>
    have hc : findStats s req.userId = some stats := heq
    rw [hst] at hc
    exact Option.noConfusion hc

theorem userStats_complete_session_of_some (req : FocusSessionComplete)
    (now : Timestamp) (s : ServerState) (sess : FocusSession) (st : UserStats)
    (h : findSession s req.sessionId = some sess)
    (hst : findStats s req.userId = some st) :
    (complete_session req now s).2.userStats =
      updateFirst (fun x => x.userId = req.userId)
        (fun _ => updatedStats st now (hoursBetween sess.startTime now))
        s.userStats := by
  unfold complete_session
  rw [h]
  dsimp only
  split
  next heq =>
    have hc : findStats s req.userId = none := heq
    rw [hst] at hc
    exact Option.noConfusion hc
  next stats heq =>
    have hc : findStats s req.userId = some stats := heq
    rw [hst] at hc
    injection hc with hc
    subst hc
    rfl

theorem mem_updateFirst {α : Type} {p : α → Bool} {f : α → α} {l : List α}
    {a : α} (ha : a ∈ updateFirst p f l) : a ∈ l ∨ ∃ b ∈ l, a = f b := by
  induction l with
  | nil => simp [updateFirst] at ha
  | cons x xs ih =>
    unfold updateFirst at ha
    by_cases hx : p x
    · rw [if_pos hx] at ha
      rcases List.mem_cons.mp ha with hfa | hmem
      · exact Or.inr ⟨x, List.mem_cons_self x xs, hfa⟩
      · exact Or.inl (List.mem_cons_of_mem x hmem)
    · rw [if_neg hx] at ha
      rcases List.mem_cons.mp ha with hax | hmem
      · exact Or.inl (by rw [hax]; exact List.mem_cons_self x xs)
      · rcases ih hmem with hm | ⟨b, hb, hab⟩
        · exact Or.inl (List.mem_cons_of_mem x hm)
        · exact Or.inr ⟨b, List.mem_cons_of_mem x hb, hab⟩

theorem weeklyLen7_complete_session (req : FocusSessionComplete)
    (now : Timestamp) (s : ServerState) (hw : weeklyLen7 s) :
    weeklyLen7 (complete_session req now s).2 := by
  cases h : findSession s req.sessionId with
  | none =>
    rw [complete_session_of_not_found req now s h]
    exact hw
  | some sess =>
    intro st hmem
    cases hst : findStats s req.userId with
    | none =>
      rw [userStats_complete_session_of_none req now s sess h hst] at hmem
      rcases List.mem_append.mp hmem with hold | hnew
      · exact hw st hold
      · simp only [List.mem_singleton] at hnew
        subst hnew
        simp [freshStats, length_listAddAt]
    | some st0 =>
      rw [userStats_complete_session_of_some req now s sess st0 h hst] at hmem
      rcases mem_updateFirst hmem with hold | ⟨b, _, hab⟩
      · exact hw st hold
      · subst hab
        simp only [updatedStats, length_listAddAt]
        exact hw st0 (List.mem_of_find?_eq_some hst)

theorem durations_congr (s s' : ServerState)
    (h : ∀ sid, startOf s' sid = startOf s sid)
    (cmds : List (String × Timestamp)) :
    durations s' cmds = durations s cmds := by
  unfold durations
  congr 1
  funext c
  rw [h c.1]

theorem weekdayContribution_congr (s s' : ServerState) (d : ℕ)
    (h : ∀ sid, startOf s' sid = startOf s sid)
    (cmds : List (String × Timestamp)) :
    weekdayContribution s' d cmds = weekdayContribution s d cmds := by
  unfold weekdayContribution
  have hl : (cmds.filterMap (fun c =>
        if c.2.weekday = d
        then (startOf s' c.1).map (fun t => hoursBetween t c.2) else none))
      = (cmds.filterMap (fun c =>
        if c.2.weekday = d
        then (startOf s c.1).map (fun t => hoursBetween t c.2) else none)) := by
    congr 1
    funext c
    rw [h c.1]
  rw [hl]

theorem runCompletions_main (u : String) (cmds : List (String × Timestamp))
    (s : ServerState) :
    (runCompletions u cmds s).1 = durations s cmds ∧
    statsTotal (runCompletions u cmds s).2 u
      = statsTotal s u + (durations s cmds).sum ∧
    statsCount (runCompletions u cmds s).2 u
      = statsCount s u + ((durations s cmds).length : ℤ) := by
  induction cmds generalizing s with
  | nil => simp [runCompletions, durations]
  | cons c cs ih =>
    cases h : findSession s c.1 with
    | none =>
      have hstep := complete_session_of_not_found ⟨c.1, u⟩ c.2 s h
      have hrun : runCompletions u (c :: cs) s = runCompletions u cs s := by
        rw [runCompletions_cons, hstep]
      have hso : startOf s c.1 = none := by
        unfold startOf
        rw [h]
        rfl
      have hdur : durations s (c :: cs) = durations s cs := by
        unfold durations
        rw [List.filterMap_cons, hso]
        rfl
      rw [hrun, hdur]
      exact ih s
    | some sess =>
      have hok := complete_session_ok ⟨c.1, u⟩ c.2 s sess h
      have hpair : complete_session ⟨c.1, u⟩ c.2 s
          = (Except.ok (hoursBetween sess.startTime c.2),
             (complete_session ⟨c.1, u⟩ c.2 s).2) := by
        rw [← hok]
      have hrun : runCompletions u (c :: cs) s
          = (hoursBetween sess.startTime c.2
                :: (runCompletions u cs (complete_session ⟨c.1, u⟩ c.2 s).2).1,
             (runCompletions u cs (complete_session ⟨c.1, u⟩ c.2 s).2).2) := by
        rw [runCompletions_cons, hpair]
      have hso : startOf s c.1 = some sess.startTime := by
        unfold startOf
        rw [h]
        rfl
      have hdur : durations s (c :: cs)
          = hoursBetween sess.startTime c.2 :: durations s cs := by
        unfold durations
        rw [List.filterMap_cons, hso]
        rfl
      have hinv : durations (complete_session ⟨c.1, u⟩ c.2 s).2 cs
          = durations s cs :=
        durations_congr s _ (fun sid => startOf_complete_session _ _ _ sid) cs
      obtain ⟨ih1, ih2, ih3⟩ := ih (complete_session ⟨c.1, u⟩ c.2 s).2
      have htot := statsTotal_complete_session ⟨c.1, u⟩ c.2 s sess h
      have hcnt := statsCount_complete_session ⟨c.1, u⟩ c.2 s sess h
      refine ⟨?_, ?_, ?_⟩
      · rw [hrun, hdur]
        dsimp only
        rw [ih1, hinv]
      · rw [hrun, hdur]
        dsimp only
        rw [ih2, hinv, htot, List.sum_cons]
        ring
      · rw [hrun, hdur]
        dsimp only
        rw [ih3, hinv, hcnt, List.length_cons]
        push_cast
        ring

theorem runCompletions_weekly (u : String) (d : ℕ)
    (cmds : List (String × Timestamp)) (s : ServerState) (hw : weeklyLen7 s) :
    statsWeekly (runCompletions u cmds s).2 u d
      = statsWeekly s u d + weekdayContribution s d cmds := by
  induction cmds generalizing s with
  | nil => simp [runCompletions, weekdayContribution]
  | cons c cs ih =>
    cases h : findSession s c.1 with
    | none =>
      have hstep := complete_session_of_not_found ⟨c.1, u⟩ c.2 s h
      have hrun : runCompletions u (c :: cs) s = runCompletions u cs s := by
        rw [runCompletions_cons, hstep]
      have hso : startOf s c.1 = none := by
        unfold startOf
        rw [h]
        rfl
      have hwc : weekdayContribution s d (c :: cs)
          = weekdayContribution s d cs := by
        unfold weekdayContribution
        rw [List.filterMap_cons, hso]
        by_cases hcd : c.2.weekday = d
        · rw [if_pos hcd, Option.map_none']
        · rw [if_neg hcd]
      rw [hrun, hwc]
      exact ih s hw
    | some sess =>
      have hok := complete_session_ok ⟨c.1, u⟩ c.2 s sess h
      have hpair : complete_session ⟨c.1, u⟩ c.2 s
          = (Except.ok (hoursBetween sess.startTime c.2),
             (complete_session ⟨c.1, u⟩ c.2 s).2) := by
        rw [← hok]
      have hrun : runCompletions u (c :: cs) s
          = (hoursBetween sess.startTime c.2
                :: (runCompletions u cs (complete_session ⟨c.1, u⟩ c.2 s).2).1,
             (runCompletions u cs (complete_session ⟨c.1, u⟩ c.2 s).2).2) := by
        rw [runCompletions_cons, hpair]
      have hso : startOf s c.1 = some sess.startTime := by
        unfold startOf
        rw [h]
        rfl
      have hwc : weekdayContribution s d (c :: cs)
          = (if c.2.weekday = d then hoursBetween sess.startTime c.2 else 0)
            + weekdayContribution s d cs := by
        by_cases hcd : c.2.weekday = d <;>
          simp [weekdayContribution, List.filterMap_cons, hso, hcd,
            Option.map_some', Option.map_none']
      have hinv : weekdayContribution (complete_session ⟨c.1, u⟩ c.2 s).2 d cs
          = weekdayContribution s d cs :=
        weekdayContribution_congr s _ d
          (fun sid => startOf_complete_session _ _ _ sid) cs
      have hwk := statsWeekly_complete_session ⟨c.1, u⟩ c.2 s sess h hw d
      have hw2 := weeklyLen7_complete_session ⟨c.1, u⟩ c.2 s hw
      rw [hrun]
      dsimp only
      rw [ih _ hw2, hinv, hwk, hwc]
      ring

theorem getD_replicate_zero (n i : ℕ) :
    (List.replicate n (0 : ℚ)).getD i 0 = 0 := by
  rw [List.getD_eq_getElem?_getD, List.getElem?_replicate]
  split <;> rfl

theorem findSession_complete_session_self (req : FocusSessionComplete)
    (now : Timestamp) (s : ServerState) (sess : FocusSession)
    (h : findSession s req.sessionId = some sess) :
    findSession (complete_session req now s).2 req.sessionId =
      some { sess with endTime := some now, completed := true } := by
  unfold findSession
  rw [sessions_complete_session req now s sess h]
  unfold findSession at h
  obtain ⟨x, hx, hx2⟩ := Option.map_eq_some'.mp h
  have hpx := List.find?_some hx
  rw [find?_updateFirst_self _ _ _ x hx (by simpa using hpx)]
  simp only [Option.map_some']
  rw [hx2]

theorem toggle_schedule_of_not_found (sid : String) (s : ServerState)
    (h : findSchedule s sid = none) :
    toggle_schedule sid s = (.error .notFound, s) := by
  unfold toggle_schedule
  rw [h]

theorem toggle_schedule_ok (sid : String) (s : ServerState) (sch : Schedule)
    (h : findSchedule s sid = some sch) :
    (toggle_schedule sid s).1 = .ok (!sch.enabled) := by
  unfold toggle_schedule
  rw [h]

theorem findSchedule_toggle_self (sid : String) (s : ServerState)
    (sch : Schedule) (h : findSchedule s sid = some sch) :
    findSchedule (toggle_schedule sid s).2 sid =
      some { sch with enabled := !sch.enabled } := by
  unfold toggle_schedule
  rw [h]
  unfold findSchedule at h ⊢
  dsimp only
  obtain ⟨x, hx, hx2⟩ := Option.map_eq_some'.mp h
  have hpx := List.find?_some hx
  rw [find?_updateFirst_self _ _ _ x hx (by simpa using hpx)]
  simp only [Option.map_some']
  rw [hx2]

theorem newStreak_of_last (st : UserStats) (now last : Timestamp)
    (hlast : st.lastSessionDate = some last) :
    newStreak st now =
      if daysDiff now last = 0 then st.currentStreak
      else if daysDiff now last = 1 then st.currentStreak + 1
      else 1 := by
  unfold newStreak
  rw [hlast]

theorem newStreak_of_none (st : UserStats) (now : Timestamp)
    (hlast : st.lastSessionDate = none) : newStreak st now = 1 := by
  unfold newStreak
  rw [hlast]

/-! ### The claims -/

/-- C1: on a completion for a user with an existing stats record whose
`lastSessionDate` is present, the stored streak is unchanged when the
calendar-day difference is 0, incremented by 1 when it is exactly 1, and
reset to 1 when it is greater than 1 or negative. -/
theorem c1_streak_rule (req : FocusSessionComplete) (now : Timestamp)
    (s : ServerState) (sess : FocusSession) (st : UserStats) (last : Timestamp)
    (h : findSession s req.sessionId = some sess)
    (hst : findStats s req.userId = some st)
    (hlast : st.lastSessionDate = some last) :
    ∃ st', findStats (complete_session req now s).2 req.userId = some st' ∧
      (daysDiff now last = 0 → st'.currentStreak = st.currentStreak) ∧
      (daysDiff now last = 1 → st'.currentStreak = st.currentStreak + 1) ∧
      (1 < daysDiff now last ∨ daysDiff now last < 0 →
        st'.currentStreak = 1) := by
  refine ⟨updatedStats st now (hoursBetween sess.startTime now),
    findStats_complete_session_of_some req now s sess st h hst, ?_, ?_, ?_⟩
  · intro h0
    dsimp only [updatedStats]
    rw [newStreak_of_last st now last hlast, if_pos h0]
  · intro h1
    have h0 : ¬ daysDiff now last = 0 := by omega
    dsimp only [updatedStats]
    rw [newStreak_of_last st now last hlast, if_neg h0, if_pos h1]
  · intro hr
    have h0 : ¬ daysDiff now last = 0 := by
      rcases hr with hr | hr <;> omega
    have h1 : ¬ daysDiff now last = 1 := by
      rcases hr with hr | hr <;> omega
    dsimp only [updatedStats]
    rw [newStreak_of_last st now last hlast, if_neg h0, if_neg h1]

/-- Witness for C1 at a concrete next-day completion. -/
theorem c1_streak_rule_witness :
    ∃ st', findStats (complete_session ⟨"s1", "u"⟩ ⟨1, 9⟩ stateC1).2 "u"
        = some st' ∧
      (daysDiff ⟨1, 9⟩ ⟨0, 12⟩ = 0 → st'.currentStreak = stA.currentStreak) ∧
      (daysDiff ⟨1, 9⟩ ⟨0, 12⟩ = 1 →
        st'.currentStreak = stA.currentStreak + 1) ∧
      (1 < daysDiff ⟨1, 9⟩ ⟨0, 12⟩ ∨ daysDiff ⟨1, 9⟩ ⟨0, 12⟩ < 0 →
        st'.currentStreak = 1) :=
  c1_streak_rule ⟨"s1", "u"⟩ ⟨1, 9⟩ stateC1 sessA stA ⟨0, 12⟩ (by decide)
    (by decide) (by decide)

/-- C2: a completion by a user with no prior stats record inserts a fresh
record holding the actual elapsed duration as total, count 1, streak 1, the
completion timestamp as last-session date, and a 7-slot weekly breakdown
that is zero everywhere except the completion's weekday slot, which holds
the duration. -/
theorem c2_fresh_record (req : FocusSessionComplete) (now : Timestamp)
    (s : ServerState) (sess : FocusSession)
    (h : findSession s req.sessionId = some sess)
    (hst : findStats s req.userId = none) :
    ∃ st', findStats (complete_session req now s).2 req.userId = some st' ∧
      st'.totalHours = hoursBetween sess.startTime now ∧
      st'.sessionsCount = 1 ∧
      st'.currentStreak = 1 ∧
      st'.lastSessionDate = some now ∧
      st'.weeklyData.length = 7 ∧
      st'.weeklyData.getD now.weekday 0 = hoursBetween sess.startTime now ∧
      (∀ i, i ≠ now.weekday → st'.weeklyData.getD i 0 = 0) := by
  refine ⟨freshStats req.userId now (hoursBetween sess.startTime now),
    findStats_complete_session_of_none req now s sess h hst,
    rfl, rfl, rfl, rfl, ?_, ?_, ?_⟩
  · dsimp only [freshStats]
    rw [length_listAddAt]
    exact List.length_replicate 7 0
  · dsimp only [freshStats]
    rw [getD_listAddAt_self _ _ _
      (by rw [List.length_replicate]; exact now.weekday_lt),
      getD_replicate_zero, zero_add]
  · intro i hi
    dsimp only [freshStats]
    rw [getD_listAddAt_ne _ _ _ _ (Ne.symm hi), getD_replicate_zero]

/-- Witness for C2: a first completion one hour after the session start. -/
theorem c2_fresh_record_witness :
    ∃ st', findStats (complete_session ⟨"s1", "u"⟩ ⟨0, 11⟩ stateC2).2 "u"
        = some st' ∧
      st'.totalHours = hoursBetween sessA.startTime ⟨0, 11⟩ ∧
      st'.sessionsCount = 1 ∧
      st'.currentStreak = 1 ∧
      st'.lastSessionDate = some ⟨0, 11⟩ ∧
      st'.weeklyData.length = 7 ∧
      st'.weeklyData.getD (Timestamp.weekday ⟨0, 11⟩) 0
        = hoursBetween sessA.startTime ⟨0, 11⟩ ∧
      (∀ i, i ≠ Timestamp.weekday ⟨0, 11⟩ → st'.weeklyData.getD i 0 = 0) :=
  c2_fresh_record ⟨"s1", "u"⟩ ⟨0, 11⟩ stateC2 sessA (by decide) (by decide)

/-- C5: completing an unknown sessionId fails with NotFound and returns the
store completely unchanged: no session is modified and no stats record is
created or changed. -/
theorem c5_unknown_session (req : FocusSessionComplete) (now : Timestamp)
    (s : ServerState) (h : findSession s req.sessionId = none) :
    complete_session req now s = (.error .notFound, s) :=
  complete_session_of_not_found req now s h

/-- Witness for C5 on an empty store. -/
theorem c5_unknown_session_witness :
    complete_session ⟨"nope", "u"⟩ ⟨0, 0⟩ emptyState
      = (.error .notFound, emptyState) :=
  c5_unknown_session ⟨"nope", "u"⟩ ⟨0, 0⟩ emptyState (by decide)

/-- C7: getStats for a user with no persisted record returns the default
all-zero record (no last-session date, seven zero weekly slots) and leaves
the store unchanged. -/
theorem c7_default_stats (u : String) (s : ServerState)
    (h : findStats s u = none) :
    get_stats u s =
      ({ userId := u, totalHours := 0, sessionsCount := 0, currentStreak := 0,
         lastSessionDate := none,
         weeklyData := [0, 0, 0, 0, 0, 0, 0] }, s) := by
  unfold get_stats
  rw [h]
  rfl

/-- Witness for C7 on an empty store. -/
theorem c7_default_stats_witness :
    get_stats "u" emptyState =
      ({ userId := "u", totalHours := 0, sessionsCount := 0,
         currentStreak := 0, lastSessionDate := none,
         weeklyData := [0, 0, 0, 0, 0, 0, 0] }, emptyState) :=
  c7_default_stats "u" emptyState (by decide)

/-- C10: a completion for a user whose existing stats record has no
`lastSessionDate` sets the streak to 1 while total hours, session count and
weekly data are updated normally and `lastSessionDate` is set to the
completion timestamp. -/
theorem c10_missing_last_date (req : FocusSessionComplete) (now : Timestamp)
    (s : ServerState) (sess : FocusSession) (st : UserStats)
    (h : findSession s req.sessionId = some sess)
    (hst : findStats s req.userId = some st)
    (hlast : st.lastSessionDate = none) :
    ∃ st', findStats (complete_session req now s).2 req.userId = some st' ∧
      st'.currentStreak = 1 ∧
      st'.totalHours = st.totalHours + hoursBetween sess.startTime now ∧
      st'.sessionsCount = st.sessionsCount + 1 ∧
      st'.weeklyData = listAddAt st.weeklyData now.weekday
        (hoursBetween sess.startTime now) ∧
      st'.lastSessionDate = some now := by
  refine ⟨updatedStats st now (hoursBetween sess.startTime now),
    findStats_complete_session_of_some req now s sess st h hst,
    ?_, rfl, rfl, rfl, rfl⟩
  dsimp only [updatedStats]
  exact newStreak_of_none st now hlast

/-- Witness for C10. -/
theorem c10_missing_last_date_witness :
    ∃ st', findStats (complete_session ⟨"s1", "u"⟩ ⟨5, 9⟩ stateC10).2 "u"
        = some st' ∧
      st'.currentStreak = 1 ∧
      st'.totalHours = stNoDate.totalHours
        + hoursBetween sessA.startTime ⟨5, 9⟩ ∧
      st'.sessionsCount = stNoDate.sessionsCount + 1 ∧
      st'.weeklyData = listAddAt stNoDate.weeklyData
        (Timestamp.weekday ⟨5, 9⟩) (hoursBetween sessA.startTime ⟨5, 9⟩) ∧
      st'.lastSessionDate = some ⟨5, 9⟩ :=
  c10_missing_last_date ⟨"s1", "u"⟩ ⟨5, 9⟩ stateC10 sessA stNoDate
    (by decide) (by decide) (by decide)

/-- C3: starting from no stats record, after any sequence of completions the
persisted totalHours equals the sum of the successful completions' actual
elapsed durations (end time minus start time, in hours) and sessionsCount
equals their number; moreover every single completion adds exactly its own
duration to the prior total and 1 to the prior count. -/
theorem c3_totals_accumulate (u : String) (cmds : List (String × Timestamp))
    (s : ServerState) (h0 : findStats s u = none) :
    (runCompletions u cmds s).1 = durations s cmds ∧
    statsTotal (runCompletions u cmds s).2 u = (durations s cmds).sum ∧
    statsCount (runCompletions u cmds s).2 u
      = ((durations s cmds).length : ℤ) ∧
    (∀ (t : ServerState) (req : FocusSessionComplete) (now : Timestamp)
        (sess : FocusSession), findSession t req.sessionId = some sess →
      statsTotal (complete_session req now t).2 req.userId
        = statsTotal t req.userId + hoursBetween sess.startTime now ∧
      statsCount (complete_session req now t).2 req.userId
        = statsCount t req.userId + 1) := by
  obtain ⟨h1, h2, h3⟩ := runCompletions_main u cmds s
  have hz : statsTotal s u = 0 := by
    unfold statsTotal
    rw [h0]
  have hzc : statsCount s u = 0 := by
    unfold statsCount
    rw [h0]
  refine ⟨h1, ?_, ?_, fun t req now sess ht =>
    ⟨statsTotal_complete_session req now t sess ht,
     statsCount_complete_session req now t sess ht⟩⟩
  · rw [h2, hz, zero_add]
  · rw [h3, hzc, zero_add]

/-- Witness for C3: two completions on consecutive days. -/
theorem c3_totals_accumulate_witness :
    (runCompletions "u" [("s1", ⟨2, 11⟩), ("s2", ⟨3, 9⟩)] stateC3).1
      = durations stateC3 [("s1", ⟨2, 11⟩), ("s2", ⟨3, 9⟩)] ∧
    statsTotal (runCompletions "u" [("s1", ⟨2, 11⟩), ("s2", ⟨3, 9⟩)] stateC3).2 "u"
      = (durations stateC3 [("s1", ⟨2, 11⟩), ("s2", ⟨3, 9⟩)]).sum ∧
    statsCount (runCompletions "u" [("s1", ⟨2, 11⟩), ("s2", ⟨3, 9⟩)] stateC3).2 "u"
      = ((durations stateC3 [("s1", ⟨2, 11⟩), ("s2", ⟨3, 9⟩)]).length : ℤ) ∧
    (∀ (t : ServerState) (req : FocusSessionComplete) (now : Timestamp)
        (sess : FocusSession), findSession t req.sessionId = some sess →
      statsTotal (complete_session req now t).2 req.userId
        = statsTotal t req.userId + hoursBetween sess.startTime now ∧
      statsCount (complete_session req now t).2 req.userId
        = statsCount t req.userId + 1) :=
  c3_totals_accumulate "u" [("s1", ⟨2, 11⟩), ("s2", ⟨3, 9⟩)] stateC3
    (by decide)

/-- C4: starting from no stats record, `weeklyData[d]` accumulates exactly
the durations of the completions whose completion date fell on weekday `d`;
a single completion adds its duration to its own weekday entry and leaves
every other entry unchanged. -/
theorem c4_weekly_breakdown (u : String) (d : ℕ)
    (cmds : List (String × Timestamp)) (s : ServerState)
    (hw : weeklyLen7 s) (h0 : findStats s u = none) :
    statsWeekly (runCompletions u cmds s).2 u d
      = weekdayContribution s d cmds ∧
    (∀ (t : ServerState) (req : FocusSessionComplete) (now : Timestamp)
        (sess : FocusSession), weeklyLen7 t →
      findSession t req.sessionId = some sess →
      statsWeekly (complete_session req now t).2 req.userId now.weekday
        = statsWeekly t req.userId now.weekday
          + hoursBetween sess.startTime now ∧
      (∀ i, i ≠ now.weekday →
        statsWeekly (complete_session req now t).2 req.userId i
          = statsWeekly t req.userId i)) := by
  constructor
  · have hmain := runCompletions_weekly u d cmds s hw
    have hz : statsWeekly s u d = 0 := by
      unfold statsWeekly
      rw [h0]
    rwa [hz, zero_add] at hmain
  · intro t req now sess hwt ht
    constructor
    · have hstep := statsWeekly_complete_session req now t sess ht hwt
        now.weekday
      rwa [if_pos rfl] at hstep
    · intro i hi
      have hstep := statsWeekly_complete_session req now t sess ht hwt i
      rwa [if_neg (Ne.symm hi), add_zero] at hstep

/-- Witness for C4 at weekday 3 (the weekday of day ordinal 3). -/
theorem c4_weekly_breakdown_witness :
    statsWeekly (runCompletions "u" [("s1", ⟨2, 11⟩), ("s2", ⟨3, 9⟩)] stateC3).2 "u" 3
      = weekdayContribution stateC3 3 [("s1", ⟨2, 11⟩), ("s2", ⟨3, 9⟩)] ∧
    (∀ (t : ServerState) (req : FocusSessionComplete) (now : Timestamp)
        (sess : FocusSession), weeklyLen7 t →
      findSession t req.sessionId = some sess →
      statsWeekly (complete_session req now t).2 req.userId now.weekday
        = statsWeekly t req.userId now.weekday
          + hoursBetween sess.startTime now ∧
      (∀ i, i ≠ now.weekday →
        statsWeekly (complete_session req now t).2 req.userId i
          = statsWeekly t req.userId i)) :=
  c4_weekly_breakdown "u" 3 [("s1", ⟨2, 11⟩), ("s2", ⟨3, 9⟩)] stateC3
    (by unfold weeklyLen7; decide) (by decide)

/-- C6: completing a session that is already completed is not rejected: the
call succeeds with the recomputed duration, overwrites `endTime` with the
new completion time, keeps `completed = true`, and re-applies the whole
stats update (count +1, total and weekly data increased again). -/
theorem c6_not_idempotent (req : FocusSessionComplete) (now : Timestamp)
    (s : ServerState) (sess : FocusSession)
    (h : findSession s req.sessionId = some sess)
    (_hc : sess.completed = true) (hw : weeklyLen7 s) :
    (complete_session req now s).1 = .ok (hoursBetween sess.startTime now) ∧
    findSession (complete_session req now s).2 req.sessionId =
      some { sess with endTime := some now, completed := true } ∧
    statsTotal (complete_session req now s).2 req.userId
      = statsTotal s req.userId + hoursBetween sess.startTime now ∧
    statsCount (complete_session req now s).2 req.userId
      = statsCount s req.userId + 1 ∧
    statsWeekly (complete_session req now s).2 req.userId now.weekday
      = statsWeekly s req.userId now.weekday
        + hoursBetween sess.startTime now := by
  refine ⟨complete_session_ok req now s sess h,
    findSession_complete_session_self req now s sess h,
    statsTotal_complete_session req now s sess h,
    statsCount_complete_session req now s sess h, ?_⟩
  have hstep := statsWeekly_complete_session req now s sess h hw now.weekday
  rwa [if_pos rfl] at hstep

/-- Witness for C6: re-completing an already completed session. -/
theorem c6_not_idempotent_witness :
    (complete_session ⟨"s1", "u"⟩ ⟨2, 9⟩ stateC6).1
      = .ok (hoursBetween sessADone.startTime ⟨2, 9⟩) ∧
    findSession (complete_session ⟨"s1", "u"⟩ ⟨2, 9⟩ stateC6).2 "s1" =
      some { sessADone with endTime := some ⟨2, 9⟩, completed := true } ∧
    statsTotal (complete_session ⟨"s1", "u"⟩ ⟨2, 9⟩ stateC6).2 "u"
      = statsTotal stateC6 "u" + hoursBetween sessADone.startTime ⟨2, 9⟩ ∧
    statsCount (complete_session ⟨"s1", "u"⟩ ⟨2, 9⟩ stateC6).2 "u"
      = statsCount stateC6 "u" + 1 ∧
    statsWeekly (complete_session ⟨"s1", "u"⟩ ⟨2, 9⟩ stateC6).2 "u"
        (Timestamp.weekday ⟨2, 9⟩)
      = statsWeekly stateC6 "u" (Timestamp.weekday ⟨2, 9⟩)
        + hoursBetween sessADone.startTime ⟨2, 9⟩ :=
  c6_not_idempotent ⟨"s1", "u"⟩ ⟨2, 9⟩ stateC6 sessADone
    (by decide) (by decide) (by unfold weeklyLen7; decide)

/-- C8: toggleSchedule fails with NotFound on an unknown id; on an existing
id it flips the stored enabled flag and returns the new value, and two
successive calls return the negation and then the original value, restoring
the stored record to its initial state. -/
theorem c8_toggle_involution (sid : String) (s : ServerState) :
    (findSchedule s sid = none →
      toggle_schedule sid s = (.error .notFound, s)) ∧
    (∀ sch, findSchedule s sid = some sch →
      (toggle_schedule sid s).1 = .ok (!sch.enabled) ∧
      findSchedule (toggle_schedule sid s).2 sid
        = some { sch with enabled := !sch.enabled } ∧
      (toggle_schedule sid (toggle_schedule sid s).2).1 = .ok sch.enabled ∧
      findSchedule (toggle_schedule sid (toggle_schedule sid s).2).2 sid
        = some sch) := by
  refine ⟨toggle_schedule_of_not_found sid s, fun sch hsch => ?_⟩
  have h2 := findSchedule_toggle_self sid s sch hsch
  refine ⟨toggle_schedule_ok sid s sch hsch, h2, ?_, ?_⟩
  · have hok := toggle_schedule_ok sid (toggle_schedule sid s).2 _ h2
    rwa [Bool.not_not] at hok
  · have h3 := findSchedule_toggle_self sid (toggle_schedule sid s).2 _ h2
    rw [h3]
    show some ({ sch with enabled := !(!sch.enabled) } : Schedule) = some sch
    rw [Bool.not_not]

/-- Witness for C8 on a one-schedule store. -/
theorem c8_toggle_involution_witness :
    (toggle_schedule "a" stateC8).1 = .ok (!schedX.enabled) ∧
    findSchedule (toggle_schedule "a" stateC8).2 "a"
      = some { schedX with enabled := !schedX.enabled } ∧
    (toggle_schedule "a" (toggle_schedule "a" stateC8).2).1
      = .ok schedX.enabled ∧
    findSchedule (toggle_schedule "a" (toggle_schedule "a" stateC8).2).2 "a"
      = some schedX :=
  (c8_toggle_involution "a" stateC8).2 schedX (by decide)

/-- C9 fails on the code: `get_schedules` issues `to_list(100)`, capping the
response at 100 documents, so with 101 stored schedules for the user the
101st stored schedule never appears in the result. -/
theorem c9_counterexample :
    ("x", lateSchedule) ∈ stateC9.schedules ∧
    ("x", lateSchedule).2.userId = "u" ∧
    ¬ (("x", lateSchedule) ∈ (get_schedules "u" stateC9).1) := by
  decide

/-- C9 amended: listSchedules returns the matching schedules in storage
order capped at 100; whenever at most 100 schedules match the userId, every
stored schedule of that user appears in the result. -/
theorem c9_amended_within_cap (u : String) (s : ServerState)
    (p : String × Schedule) (hp : p ∈ s.schedules) (hu : p.2.userId = u)
    (hlen : (s.schedules.filter (fun q => q.2.userId = u)).length ≤ 100) :
    p ∈ (get_schedules u s).1 := by
  unfold get_schedules
  dsimp only
  rw [List.take_of_length_le hlen]
  exact List.mem_filter.mpr ⟨hp, by simp [hu]⟩

/-- Witness for the amended C9 on a one-schedule store. -/
theorem c9_amended_within_cap_witness :
    ("a", schedX) ∈ (get_schedules "u" stateC8).1 :=
  c9_amended_within_cap "u" stateC8 ("a", schedX) (by decide) (by decide)
    (by decide)

end Backend
